import Mathlib

/-!
Verification development for the TraceLite collector and read API.

The Go sources are shallowly embedded:

* Go `time.Time` values are modelled as `Int` milliseconds since the Unix
  epoch; the zero time (`IsZero`) is modelled as `Option.none`.
* Go `uint32`/`uint16` arithmetic is modelled on `Nat` with explicit
  reduction `% 2^32` / `% 2^16` where the Go code can overflow, and
  `int64 → uint32` conversions with an explicit Euclidean `% 2^32`.
* Go maps are modelled as association lists in insertion order (Go map
  iteration order is unspecified; insertion order is a deterministic
  refinement, and every theorem below is stated per key or about
  order-insensitive aggregates).
* `model.FormatCHTime` renders a time as a ClickHouse datetime string; it is
  injective on millisecond timestamps, and is modelled by the decimal
  rendering of the millisecond value.  Span rows keep their timestamps as
  `Int` instead of formatted strings; the format/parse round trip
  (`FormatCHTime`/`parseCHTime`) is the identity on such values.
* Go `float64` arithmetic of the read API is modelled on `ℚ`;
  `math.Round` is half-away-from-zero rounding.
-/

/-- Association-list lookup, modelling Go map read `m[k]`. -/
def lookupA {α : Type} : List (String × α) → String → Option α
  | [], _ => none
  | (k', v') :: rest, k => if k' = k then some v' else lookupA rest k

/-- Association-list write, modelling Go map assignment `m[k] = v`
(insert at the end when the key is absent, replace in place otherwise). -/
def updateA {α : Type} : List (String × α) → String → α → List (String × α)
  | [], k, v => [(k, v)]
  | (k', v') :: rest, k, v =>
      if k' = k then (k', v) :: rest else (k', v') :: updateA rest k v

theorem lookupA_updateA_self {α : Type} (m : List (String × α)) (k : String) (v : α) :
    lookupA (updateA m k v) k = some v := by
  induction m with
  | nil => simp [lookupA, updateA]
  | cons p rest ih =>
      obtain ⟨k', v'⟩ := p
      by_cases h : k' = k
      · simp [lookupA, updateA, h]
      · simp [lookupA, updateA, h, ih]

theorem lookupA_updateA_ne {α : Type} (m : List (String × α)) (k k' : String) (v : α)
    (h : k' ≠ k) : lookupA (updateA m k v) k' = lookupA m k' := by
  have h' : ¬ k = k' := fun hh => h hh.symm
  induction m with
  | nil => simp [lookupA, updateA, h']
  | cons p rest ih =>
      obtain ⟨k0, v0⟩ := p
      by_cases h0 : k0 = k
      · subst h0
        simp [lookupA, updateA, h']
      · by_cases h1 : k0 = k'
        · subst h1
          simp [lookupA, updateA, h0]
        · simp [lookupA, updateA, h0, h1, ih]

/-- The `uint32` modulus. -/
def u32 : Nat := 4294967296

/-- The `uint16` modulus. -/
def u16 : Nat := 65536

/-- Go conversion `uint32(x)` from a (possibly negative) `int64`
millisecond difference: the low 32 bits, i.e. the Euclidean remainder. -/
def i64toU32 (x : Int) : Nat := (x.emod (u32 : Int)).toNat

/-- One normalized event as handed to the reconstructor
(source: `model.RawLogRow`; the `ts`/`raw_json` presentation fields are kept
as the parsed millisecond timestamp paired with the row by the caller). -/
structure RawLogRow where
  traceID : String
  spanID : String
  parentSpanID : String
  service : String
  env : String
  host : String
  version : String
  level : String
  message : String
  event : String
  route : String
  method : String
  statusCode : Nat
  durationMs : Nat
  deriving Repr, DecidableEq

/-- In-memory span accumulator (source: `reconstruct.spanState`).
`startTs`/`endTs` are `none` while the Go `time.Time` value is zero. -/
structure SpanState where
  traceID : String
  spanID : String
  parentSpanID : String
  service : String
  env : String
  host : String
  version : String
  operation : String
  startTs : Option Int
  endTs : Option Int
  durationMs : Nat
  statusCode : Nat
  isError : Bool
  source : String
  deriving Repr, DecidableEq

/-- In-memory per-trace state (source: `reconstruct.traceState`);
`updatedAt = none` models the zero time before any event is folded. -/
structure TraceState where
  id : String
  env : String
  updatedAt : Option Int
  spans : List (String × SpanState)
  deriving Repr, DecidableEq

/-- The reconstructor's trace map (source: `Reconstructor.traces`). -/
abbrev TraceMap : Type := List (String × TraceState)

/-- Source: `reconstruct.chooseOperation`. -/
def chooseOperation (route fallback : String) : String :=
  if route ≠ "" then route
  else if fallback ≠ "" then fallback
  else "unknown-op"

/-- Span id resolution in `Reconstructor.Add` (lines 73–76): an empty
`span_id` falls back to `implicit-<formatted timestamp>`; `FormatCHTime`
is modelled by the decimal rendering of the millisecond value. -/
def spanKey (row : RawLogRow) (ts : Int) : String :=
  if row.spanID = "" then "implicit-" ++ toString ts else row.spanID

/-- Fresh span state created on first sight of a span id
(source: `Reconstructor.Add`, lines 78–91). -/
def newSpanState (row : RawLogRow) (sid : String) : SpanState where
  traceID := row.traceID
  spanID := sid
  parentSpanID := row.parentSpanID
  service := row.service
  env := row.env
  host := row.host
  version := row.version
  operation := chooseOperation row.route row.message
  startTs := none
  endTs := none
  durationMs := 0
  statusCode := 0
  isError := false
  source := "explicit"

/-- Running minimum on an optional timestamp: the effect of
`if s.startTs.IsZero() || v.Before(s.startTs) { s.startTs = v }`. -/
def startUpd (st : Option Int) (v : Int) : Option Int :=
  match st with
  | none => some v
  | some c => if v < c then some v else some c

/-- Running maximum on an optional timestamp: the effect of
`if s.endTs.IsZero() || v.After(s.endTs) { s.endTs = v }`. -/
def endUpd (en : Option Int) (v : Int) : Option Int :=
  match en with
  | none => some v
  | some c => if c < v then some v else some c

/-- Identity-field updates of `Reconstructor.Add` (lines 93–107): a
non-empty incoming `parent_span_id` always overwrites; the other identity
fields only backfill when currently empty.  The Go code performs the five
conditional writes in sequence; no condition reads a field written by an
earlier one, so they collapse into one parallel update. -/
def applyIdent (s : SpanState) (row : RawLogRow) : SpanState :=
  { s with
    parentSpanID := if row.parentSpanID ≠ "" then row.parentSpanID else s.parentSpanID
    service := if s.service = "" then row.service else s.service
    version := if s.version = "" then row.version else s.version
    host := if s.host = "" then row.host else s.host
    operation := if s.operation = "" then chooseOperation row.route row.message else s.operation }

/-- Status updates of `Reconstructor.Add` (lines 108–114): a status of at
least 400 marks the span errored; any nonzero status overwrites
`statusCode` (the ≥400 branch's own `statusCode` write is subsumed by the
`>0` branch, which always fires as well). -/
def applyStatus (s : SpanState) (row : RawLogRow) : SpanState :=
  { s with
    isError := if 400 ≤ row.statusCode then true else s.isError
    statusCode := if 0 < row.statusCode then row.statusCode else s.statusCode }

/-- Timing updates of `Reconstructor.Add` (lines 116–139), keyed on the
event kind: `start` lowers `start_ts`, `end` raises `end_ts` and adopts a
positive explicit duration, and any other event with a positive duration
raises `end_ts`, lowers `start_ts` towards `ts − duration`, and adopts
the duration. -/
def applyTiming (s : SpanState) (row : RawLogRow) (ts : Int) : SpanState :=
  if row.event = "start" then { s with startTs := startUpd s.startTs ts }
  else if row.event = "end" then
    { s with endTs := endUpd s.endTs ts
             durationMs := if 0 < row.durationMs then row.durationMs else s.durationMs }
  else if 0 < row.durationMs then
    { s with endTs := endUpd s.endTs ts
             startTs := startUpd s.startTs (ts - (row.durationMs : Int))
             durationMs := row.durationMs }
  else s

/-- All per-span mutations of one `Reconstructor.Add` iteration
(lines 93–139), in source order. -/
def applyRow (s : SpanState) (row : RawLogRow) (ts : Int) : SpanState :=
  applyTiming (applyStatus (applyIdent s row) row) row ts

/-- Strict `ts.After(u)` where `u = none` models the Go zero time. -/
def tsAfter (u : Option Int) (ts : Int) : Bool :=
  match u with
  | none => true
  | some u' => decide (u' < ts)

/-- The `updatedAt` bump of `Reconstructor.Add` (lines 69–71):
`ts.After(t.updatedAt)` on the zero time is always true. -/
def bumpUpdatedAt (t : TraceState) (ts : Int) : TraceState :=
  if tsAfter t.updatedAt ts then { t with updatedAt := some ts } else t

/-- Trace lookup-or-create of `Reconstructor.Add` (lines 60–68). -/
def getOrCreateTrace (m : TraceMap) (row : RawLogRow) : TraceState :=
  match lookupA m row.traceID with
  | none => { id := row.traceID, env := row.env, updatedAt := none, spans := [] }
  | some t0 => t0

/-- Span lookup-or-create of `Reconstructor.Add` (lines 77–91). -/
def getOrCreateSpan (spans : List (String × SpanState)) (row : RawLogRow) (sid : String) :
    SpanState :=
  match lookupA spans sid with
  | none => newSpanState row sid
  | some s0 => s0

/-- One iteration of the loop in `Reconstructor.Add` (lines 58–140):
locate or create the trace, bump `updatedAt`, locate or create the span,
and fold the event into it. -/
def foldRow (m : TraceMap) (p : RawLogRow × Int) : TraceMap :=
  let row := p.1
  let ts := p.2
  let t := bumpUpdatedAt (getOrCreateTrace m row) ts
  let sid := spanKey row ts
  let s := getOrCreateSpan t.spans row sid
  updateA m row.traceID { t with spans := updateA t.spans sid (applyRow s row ts) }

/-- Source: `Reconstructor.Add` — fold a batch of normalized rows with
their parsed timestamps into the trace map. -/
def reconstructorAdd (m : TraceMap) (batch : List (RawLogRow × Int)) : TraceMap :=
  batch.foldl foldRow m

/-- Canonical span record written on flush (source: `model.SpanRow`);
`startI`/`endI` carry the millisecond timestamps that the Go code renders
with `FormatCHTime` into `start_ts`/`end_ts`. -/
structure SpanRow where
  traceID : String
  spanID : String
  parentSpanID : String
  service : String
  env : String
  host : String
  version : String
  operation : String
  startI : Int
  endI : Int
  durationMs : Nat
  selfTimeMs : Nat
  statusCode : Nat
  isError : Nat
  source : String
  deriving Repr, DecidableEq

/-- Per-trace rollup record (source: `model.TraceRow`). -/
structure TraceRow where
  traceID : String
  env : String
  rootService : String
  startI : Int
  endI : Int
  durationMs : Nat
  spanCount : Nat
  serviceCount : Nat
  errorCount : Nat
  criticalPathMs : Nat
  versions : List String
  deriving Repr, DecidableEq

/-- Source: `reconstruct.boolToUint8`. -/
def boolToUint8 (v : Bool) : Nat := if v then 1 else 0

/-- Time inference of `finalizeSpans` (lines 215–231): the three
sequential repairs for missing `start_ts`/`end_ts`, followed by the
duration computation with its `end < start` repair (lines 233–239).
Returns the repaired span, the provenance, and the `uint32` duration. -/
def finalizeTimes (now : Int) (s : SpanState) : SpanState × String × Nat :=
  let source := s.source
  let (s, source) :=
    match s.startTs, s.endTs with
    | none, some en =>
        if 0 < s.durationMs then ({ s with startTs := some (en - (s.durationMs : Int)) }, "inferred")
        else (s, source)
    | _, _ => (s, source)
  let (s, source) :=
    match s.endTs, s.startTs with
    | none, some st =>
        if 0 < s.durationMs then ({ s with endTs := some (st + (s.durationMs : Int)) }, "inferred")
        else ({ s with endTs := some st }, "inferred")
    | _, _ => (s, source)
  let (s, source) :=
    match s.startTs with
    | none => ({ s with startTs := some now, endTs := some now }, "inferred")
    | some _ => (s, source)
  if s.durationMs = 0 then
    match s.startTs, s.endTs with
    | some st, some en =>
        if en < st then ({ s with endTs := some st }, source, 0)
        else (s, source, i64toU32 (en - st))
    | _, _ => (s, source, 0)
  else (s, source, s.durationMs)

/-- Child duration used in the self-time computation
(source: `finalizeSpans`, lines 242–247). -/
def childDurOf (c : SpanState) : Nat :=
  if c.durationMs = 0 then
    match c.startTs, c.endTs with
    | some st, some en => i64toU32 (en - st)
    | _, _ => 0
  else c.durationMs

/-- Self-time computation of `finalizeSpans` (lines 249–252): the full
duration unless the child total is strictly below it. -/
def selfTimeOf (duration childTotal : Nat) : Nat :=
  if childTotal < duration then duration - childTotal else duration

/-- Source: `reconstruct.finalizeSpans`.  The Go loop mutates the shared
`spanState` values in place while iterating, so the child durations of a
parent processed later see the already-repaired times of its children;
the fold threads the state list to reproduce that. -/
def finalizeSpans (now : Int) (t : TraceState) : List SpanRow :=
  let step := fun (acc : List (String × SpanState) × List SpanRow) (key : String) =>
    match lookupA acc.1 key with
    | none => acc
    | some s =>
        let (s', source, duration) := finalizeTimes now s
        let states' := updateA acc.1 key s'
        let children :=
          (states'.filter fun q => q.2.parentSpanID ≠ "" ∧ q.2.parentSpanID = key).map (·.2)
        let childTotal := children.foldl (fun a c => (a + childDurOf c) % u32) 0
        let selfTime := selfTimeOf duration childTotal
        let row : SpanRow :=
          { traceID := s'.traceID, spanID := s'.spanID, parentSpanID := s'.parentSpanID
            service := s'.service, env := s'.env, host := s'.host, version := s'.version
            operation := s'.operation
            startI := s'.startTs.getD 0, endI := s'.endTs.getD 0
            durationMs := duration, selfTimeMs := selfTime
            statusCode := s'.statusCode, isError := boolToUint8 s'.isError
            source := source }
        (states', acc.2 ++ [row])
  ((t.spans.map (·.1)).foldl step (t.spans, [])).2

/-- Memoized depth-first search of `reconstruct.criticalPath` with its
visiting-set cycle guard, made total with a fuel argument (the recursion
depth is bounded by the number of distinct span ids, so fuel
`|spans| + 1` is never exhausted). -/
def cpDFS (spans : List (String × SpanRow)) (children : List (String × List String)) :
    Nat → String → List (String × Nat) → List String → Nat × List (String × Nat)
  | 0, _, memo, _ => (0, memo)
  | fuel + 1, id, memo, visiting =>
      match lookupA memo id with
      | some v => (v, memo)
      | none =>
          if id ∈ visiting then (0, memo)
          else
            let dur := match lookupA spans id with
              | some s => s.durationMs
              | none => 0
            let kids := (lookupA children id).getD []
            let (bestChild, memo) :=
              kids.foldl
                (fun (acc : Nat × List (String × Nat)) c =>
                  let (score, memo') := cpDFS spans children fuel c acc.2 (id :: visiting)
                  (max acc.1 score, memo'))
                (0, memo)
            let total := (dur + bestChild) % u32
            (total, updateA memo id total)

/-- Source: `reconstruct.criticalPath` — seeded from spans whose parent is
empty or absent, falling back to all spans when every seed scores zero;
the memo table is shared across seeds exactly as in the source. -/
def criticalPath (spans : List (String × SpanRow)) (children : List (String × List String)) : Nat :=
  let fuel := spans.length + 1
  let seedStep := fun (acc : Nat × List (String × Nat)) (p : String × SpanRow) =>
    if p.2.parentSpanID ≠ "" ∧ (lookupA spans p.2.parentSpanID).isSome then acc
    else
      let (score, memo) := cpDFS spans children fuel p.1 acc.2 []
      (max acc.1 score, memo)
  let (best, memo) := spans.foldl seedStep (0, [])
  if best = 0 then
    (spans.foldl
      (fun (acc : Nat × List (String × Nat)) p =>
        let (score, memo') := cpDFS spans children fuel p.1 acc.2 []
        (max acc.1 score, memo'))
      (0, memo)).1
  else best

/-- Ascending insertion sort used to model `sort.Strings` and
`sort.Slice` on durations. -/
def insertSorted {α : Type} (le : α → α → Bool) : α → List α → List α
  | x, [] => [x]
  | x, y :: ys => if le x y then x :: y :: ys else y :: insertSorted le x ys

/-- Full insertion sort. -/
def sortBy {α : Type} (le : α → α → Bool) : List α → List α
  | [] => []
  | x :: xs => insertSorted le x (sortBy le xs)

/-- Source: `reconstruct.buildTraceRow`.  `services`/`versions` model the
Go set-maps; the versions are sorted ascending, so the unspecified map
iteration order is immaterial. -/
def buildTraceRow (env traceID : String) (spans : List SpanRow) : TraceRow :=
  match spans with
  | [] => { traceID := traceID, env := env, rootService := "", startI := 0, endI := 0
            durationMs := 0, spanCount := 0, serviceCount := 0, errorCount := 0
            criticalPathMs := 0, versions := [] }
  | s0 :: _ =>
      let init := (s0.startI, s0.endI, s0.service)
      let (start, en, rootService) :=
        spans.foldl
          (fun (acc : Int × Int × String) s =>
            let acc := if s.startI < acc.1 then (s.startI, acc.2.1, s.service) else acc
            if acc.2.1 < s.endI then (acc.1, s.endI, acc.2.2) else acc)
          init
      let byID := spans.foldl (fun m s => updateA m s.spanID s) []
      let children :=
        spans.foldl
          (fun m s =>
            if s.parentSpanID ≠ "" then
              updateA m s.parentSpanID ((lookupA m s.parentSpanID).getD [] ++ [s.spanID])
            else m)
          []
      let services := (spans.map (·.service)).dedup
      let versions := sortBy (fun a b => decide (a ≤ b)) (spans.map (·.version)).dedup
      let errorCount := (spans.filter (fun s => s.isError = 1)).length
      { traceID := traceID, env := env, rootService := rootService
        startI := start, endI := en
        durationMs := i64toU32 (en - start)
        spanCount := spans.length % u16
        serviceCount := services.length % u16
        errorCount := errorCount % u16
        criticalPathMs := criticalPath byID children
        versions := versions }

/-- Immutable per-minute dependency edge record
(source: `model.DependencyEdgeRow`); the minute bucket and the percentile
values are kept as integers (`p50`/`p95` are exact span durations, so the
`float32` conversion of the source is lossless below 2^24). -/
structure DependencyEdgeRow where
  bucketI : Int
  env : String
  callerService : String
  calleeService : String
  callerVersion : String
  calleeVersion : String
  calls : Nat
  errorCalls : Nat
  p50Ms : Nat
  p95Ms : Nat
  maxMs : Nat
  deriving Repr, DecidableEq

/-- Source: `reconstruct.edgeKey`. -/
structure EdgeKey where
  bucketI : Int
  env : String
  callerService : String
  calleeService : String
  callerVersion : String
  calleeVersion : String
  deriving Repr, DecidableEq

/-- Source: `reconstruct.edgeState`. -/
structure EdgeState where
  durations : List Nat
  errorCalls : Nat
  deriving Repr, DecidableEq

/-- Source: `reconstruct.toMinute` — the minute-floored bucket of a
millisecond timestamp. -/
def toMinute (ts : Int) : Int := 60000 * (ts.fdiv 60000)

/-- Association-list analogue of `lookupA` for `EdgeKey` keys. -/
def lookupE (m : List (EdgeKey × EdgeState)) (k : EdgeKey) : Option EdgeState :=
  match m with
  | [] => none
  | (k', v') :: rest => if k' = k then some v' else lookupE rest k

/-- Association-list analogue of `updateA` for `EdgeKey` keys. -/
def updateE (m : List (EdgeKey × EdgeState)) (k : EdgeKey) (v : EdgeState) :
    List (EdgeKey × EdgeState) :=
  match m with
  | [] => [(k, v)]
  | (k', v') :: rest => if k' = k then (k', v) :: rest else (k', v') :: updateE rest k v

/-- Source: `reconstruct.accumulateEdges` — for every parent→child pair of
distinct services, record the callee duration in the minute bucket of the
callee's start. -/
def accumulateEdges (spans : List SpanRow) (agg : List (EdgeKey × EdgeState)) :
    List (EdgeKey × EdgeState) :=
  let byID := spans.foldl (fun m s => updateA m s.spanID s) []
  spans.foldl
    (fun agg s =>
      if s.parentSpanID = "" then agg
      else
        match lookupA byID s.parentSpanID with
        | none => agg
        | some p =>
            if p.service = s.service then agg
            else
              let k : EdgeKey :=
                { bucketI := toMinute s.startI, env := s.env
                  callerService := p.service, calleeService := s.service
                  callerVersion := p.version, calleeVersion := s.version }
              let e := (lookupE agg k).getD { durations := [], errorCalls := 0 }
              updateE agg k
                { durations := e.durations ++ [s.durationMs]
                  errorCalls := e.errorCalls + (if s.isError = 1 then 1 else 0) })
    agg

/-- Source: `reconstruct.percentile` — the value at index
`int(float64(n-1)·p)` of the sorted array; for `p ∈ {0.50, 0.95}` the
float computation agrees with `(n-1)·pNum / 100` in exact arithmetic. -/
def percentileIdx (n pNum : Nat) : Nat := ((n - 1) * pNum) / 100

/-- Source: `reconstruct.collapseEdgeAgg`. -/
def collapseEdgeAgg (agg : List (EdgeKey × EdgeState)) : List DependencyEdgeRow :=
  agg.foldl
    (fun out kv =>
      let (k, v) := kv
      let durations := sortBy (fun a b => decide (a ≤ b)) v.durations
      let calls := durations.length
      if calls = 0 then out
      else
        out ++ [{ bucketI := k.bucketI, env := k.env
                  callerService := k.callerService, calleeService := k.calleeService
                  callerVersion := k.callerVersion, calleeVersion := k.calleeVersion
                  calls := calls, errorCalls := v.errorCalls
                  p50Ms := (durations.getD (percentileIdx calls 50) 0)
                  p95Ms := (durations.getD (percentileIdx calls 95) 0)
                  maxMs := durations.getD (calls - 1) 0 }])
    []

/-- Everything a flush computes: the surviving in-memory map and the three
row batches handed to the store. -/
structure FlushOutput where
  traces : TraceMap
  spanRows : List SpanRow
  traceRows : List TraceRow
  edges : List DependencyEdgeRow
  deriving DecidableEq

/-- Age test of `Reconstructor.FlushNow` (line 167): a trace is flushed
when `now − updatedAt ≥ window`; an untouched `updatedAt` (Go zero time)
is always aged. -/
def agedAt (now window : Int) (t : TraceState) : Bool :=
  match t.updatedAt with
  | none => true
  | some u => window ≤ now - u

/-- Source: `Reconstructor.FlushNow` (lines 157–192).  Aged traces are
finalized, rolled up, aggregated into edges and deleted from the map;
younger traces stay.  The store inserts happen after the loop and their
results are discarded by the source (`_ = r.ch.InsertJSONEachRow(...)`),
so the computed output is independent of them. -/
def FlushNow (m : TraceMap) (now window : Int) : FlushOutput :=
  let step := fun (acc : List SpanRow × List TraceRow × List (EdgeKey × EdgeState))
      (p : String × TraceState) =>
    if agedAt now window p.2 then
      let spans := finalizeSpans now p.2
      if spans.isEmpty then acc
      else (acc.1 ++ spans, acc.2.1 ++ [buildTraceRow p.2.env p.1 spans],
            accumulateEdges spans acc.2.2)
    else acc
  let acc := m.foldl step ([], [], [])
  { traces := m.filter (fun p => ! agedAt now window p.2)
    spanRows := acc.1
    traceRows := acc.2.1
    edges := collapseEdgeAgg acc.2.2 }

/-- Outcome of the three store inserts attempted by `FlushNow`; `false`
models a failed `InsertJSONEachRow` call. -/
abbrev StoreOutcome : Type := Bool

/-- Source: `Reconstructor.FlushNow` with the store outcome made explicit.
The source binds every insert result to `_` (lines 183, 186, 190), so the
outcome is dead: the function returns the same output either way. -/
def FlushNowStore (m : TraceMap) (now window : Int) (store : StoreOutcome) : FlushOutput :=
  let out := FlushNow m now window
  let _ := store
  out

/-- The order-insensitive observation of a span state: its resolved
`start_ts`, `end_ts` and error flag. -/
abbrev SpanObs : Type := Option Int × Option Int × Bool

/-- Observation of a span state. -/
def obsOf (s : SpanState) : SpanObs := (s.startTs, s.endTs, s.isError)

/-- Observation of the span stored at `(tid, sid)` in the trace map. -/
def obsSpan (m : TraceMap) (tid sid : String) : Option SpanObs :=
  (lookupA m tid).bind fun t => (lookupA t.spans sid).map obsOf

/-- Effect of one event on the observed `start_ts`. -/
def obsStF (row : RawLogRow) (ts : Int) (st : Option Int) : Option Int :=
  if row.event = "start" then startUpd st ts
  else if row.event = "end" then st
  else if 0 < row.durationMs then startUpd st (ts - (row.durationMs : Int)) else st

/-- Effect of one event on the observed `end_ts`. -/
def obsEnF (row : RawLogRow) (ts : Int) (en : Option Int) : Option Int :=
  if row.event = "start" then en
  else if row.event = "end" then endUpd en ts
  else if 0 < row.durationMs then endUpd en ts else en

/-- Effect of one event on the observed error flag. -/
def obsErF (row : RawLogRow) (er : Bool) : Bool :=
  er || decide (400 ≤ row.statusCode)

/-- Effect of one event on a span observation. -/
def obsApply (o : SpanObs) (row : RawLogRow) (ts : Int) : SpanObs :=
  (obsStF row ts o.1, obsEnF row ts o.2.1, obsErF row o.2.2)

/-- The `(trace, span)` key an event is routed to, a function of the
event alone. -/
def eventKey (p : RawLogRow × Int) : String × String := (p.1.traceID, spanKey p.1 p.2)

/-- Effect of one event on the observation at a fixed `(tid, sid)` key. -/
def obsStep (tid sid : String) (o : Option SpanObs) (p : RawLogRow × Int) : Option SpanObs :=
  if eventKey p = (tid, sid) then some (obsApply (o.getD (none, none, false)) p.1 p.2) else o

theorem startUpd_rcomm (st : Option Int) (a b : Int) :
    startUpd (startUpd st a) b = startUpd (startUpd st b) a := by
  rcases st with _ | c
  · simp only [startUpd]
    split_ifs <;> simp_all <;> omega
  · simp only [startUpd]
    by_cases h1 : a < c <;> by_cases h2 : b < c <;>
      simp only [h1, h2, if_true, if_false, startUpd] <;>
      split_ifs <;> simp_all <;> omega

theorem endUpd_rcomm (en : Option Int) (a b : Int) :
    endUpd (endUpd en a) b = endUpd (endUpd en b) a := by
  rcases en with _ | c
  · simp only [endUpd]
    split_ifs <;> simp_all <;> omega
  · simp only [endUpd]
    by_cases h1 : c < a <;> by_cases h2 : c < b <;>
      simp only [h1, h2, if_true, if_false, endUpd] <;>
      split_ifs <;> simp_all <;> omega

theorem obsStF_rcomm (r1 r2 : RawLogRow) (t1 t2 : Int) (st : Option Int) :
    obsStF r2 t2 (obsStF r1 t1 st) = obsStF r1 t1 (obsStF r2 t2 st) := by
  simp only [obsStF]
  split_ifs <;> first | rfl | apply startUpd_rcomm

theorem obsEnF_rcomm (r1 r2 : RawLogRow) (t1 t2 : Int) (en : Option Int) :
    obsEnF r2 t2 (obsEnF r1 t1 en) = obsEnF r1 t1 (obsEnF r2 t2 en) := by
  simp only [obsEnF]
  split_ifs <;> first | rfl | apply endUpd_rcomm

theorem obsErF_rcomm (r1 r2 : RawLogRow) (er : Bool) :
    obsErF r2 (obsErF r1 er) = obsErF r1 (obsErF r2 er) := by
  simp only [obsErF]
  cases er <;> cases h1 : decide (400 ≤ r1.statusCode) <;>
    cases h2 : decide (400 ≤ r2.statusCode) <;> simp

theorem obsApply_rcomm (o : SpanObs) (r1 : RawLogRow) (t1 : Int) (r2 : RawLogRow) (t2 : Int) :
    obsApply (obsApply o r1 t1) r2 t2 = obsApply (obsApply o r2 t2) r1 t1 := by
  obtain ⟨st, en, er⟩ := o
  simp only [obsApply]
  exact congrArg₂ Prod.mk (obsStF_rcomm r1 r2 t1 t2 st)
    (congrArg₂ Prod.mk (obsEnF_rcomm r1 r2 t1 t2 en) (obsErF_rcomm r1 r2 er))

theorem obsStep_rcomm (tid sid : String) (o : Option SpanObs)
    (p q : RawLogRow × Int) :
    obsStep tid sid (obsStep tid sid o p) q = obsStep tid sid (obsStep tid sid o q) p := by
  simp only [obsStep]
  by_cases hp : eventKey p = (tid, sid) <;> by_cases hq : eventKey q = (tid, sid) <;>
    simp [hp, hq, obsApply_rcomm]

theorem bumpUpdatedAt_spans (t : TraceState) (ts : Int) :
    (bumpUpdatedAt t ts).spans = t.spans := by
  unfold bumpUpdatedAt
  split_ifs <;> rfl

theorem applyIdent_obs (s : SpanState) (row : RawLogRow) :
    (applyIdent s row).startTs = s.startTs ∧ (applyIdent s row).endTs = s.endTs ∧
    (applyIdent s row).isError = s.isError := by
  simp [applyIdent]

theorem applyStatus_obs (s : SpanState) (row : RawLogRow) :
    (applyStatus s row).startTs = s.startTs ∧ (applyStatus s row).endTs = s.endTs ∧
    (applyStatus s row).isError = obsErF row s.isError := by
  refine ⟨rfl, rfl, ?_⟩
  simp only [applyStatus, obsErF]
  split_ifs with h <;> simp [h]

theorem applyTiming_obs (s : SpanState) (row : RawLogRow) (ts : Int) :
    (applyTiming s row ts).startTs = obsStF row ts s.startTs ∧
    (applyTiming s row ts).endTs = obsEnF row ts s.endTs ∧
    (applyTiming s row ts).isError = s.isError := by
  simp only [applyTiming, obsStF, obsEnF]
  split_ifs <;> simp_all

theorem obsOf_applyRow (s : SpanState) (row : RawLogRow) (ts : Int) :
    obsOf (applyRow s row ts) = obsApply (obsOf s) row ts := by
  unfold applyRow obsApply obsOf
  obtain ⟨ht1, ht2, ht3⟩ := applyTiming_obs (applyStatus (applyIdent s row) row) row ts
  obtain ⟨hs1, hs2, hs3⟩ := applyStatus_obs (applyIdent s row) row
  obtain ⟨hi1, hi2, hi3⟩ := applyIdent_obs s row
  rw [ht1, ht2, ht3, hs1, hs2, hs3, hi1, hi2, hi3]

theorem obsOf_newSpanState (row : RawLogRow) (sid : String) :
    obsOf (newSpanState row sid) = (none, none, false) := rfl

theorem getOrCreateSpan_obs (spans : List (String × SpanState)) (row : RawLogRow)
    (sid : String) :
    obsOf (getOrCreateSpan spans row sid) =
      ((lookupA spans sid).map obsOf).getD (none, none, false) := by
  unfold getOrCreateSpan
  cases h : lookupA spans sid <;> simp [h, obsOf_newSpanState]

theorem getOrCreateTrace_spansObs (m : TraceMap) (row : RawLogRow) (sid : String) :
    (lookupA (getOrCreateTrace m row).spans sid).map obsOf = obsSpan m row.traceID sid := by
  unfold getOrCreateTrace obsSpan
  cases h : lookupA m row.traceID <;> simp [h, lookupA]

theorem obsSpan_foldRow_updated (m : TraceMap) (row : RawLogRow) (ts : Int) (sid : String) :
    obsSpan (foldRow m (row, ts)) row.traceID sid =
      (lookupA
        (updateA (getOrCreateTrace m row).spans (spanKey row ts)
          (applyRow (getOrCreateSpan (getOrCreateTrace m row).spans row (spanKey row ts)) row ts))
        sid).map obsOf := by
  simp only [foldRow, obsSpan]
  rw [lookupA_updateA_self]
  simp only [Option.some_bind, bumpUpdatedAt_spans]

theorem obsSpan_foldRow (m : TraceMap) (p : RawLogRow × Int) (tid sid : String) :
    obsSpan (foldRow m p) tid sid = obsStep tid sid (obsSpan m tid sid) p := by
  obtain ⟨row, ts⟩ := p
  by_cases htid : row.traceID = tid
  · subst htid
    rw [obsSpan_foldRow_updated]
    by_cases hsid : spanKey row ts = sid
    · have hkey : eventKey (row, ts) = (row.traceID, sid) := by
        simp [eventKey, hsid]
      rw [obsStep, if_pos hkey]
      rw [hsid, lookupA_updateA_self]
      rw [Option.map_some', obsOf_applyRow, getOrCreateSpan_obs, getOrCreateTrace_spansObs]
    · have hkey : eventKey (row, ts) ≠ (row.traceID, sid) := by
        simp [eventKey, hsid]
      rw [obsStep, if_neg hkey]
      rw [lookupA_updateA_ne _ _ _ _ (fun hh => hsid hh.symm), getOrCreateTrace_spansObs]
  · have hkey : eventKey (row, ts) ≠ (tid, sid) := by
      intro hcontra
      exact htid (congrArg Prod.fst hcontra)
    rw [obsStep, if_neg hkey]
    simp only [foldRow, obsSpan]
    rw [lookupA_updateA_ne _ _ _ _ (fun hh => htid hh.symm)]

theorem obsSpan_reconstructorAdd (m : TraceMap) (l : List (RawLogRow × Int)) (tid sid : String) :
    obsSpan (reconstructorAdd m l) tid sid = l.foldl (obsStep tid sid) (obsSpan m tid sid) := by
  induction l generalizing m with
  | nil => rfl
  | cons p rest ih =>
      simp only [reconstructorAdd, List.foldl_cons] at *
      rw [ih (foldRow m p), obsSpan_foldRow]

theorem foldl_perm_of_rcomm {α β : Type} (f : β → α → β)
    (H : ∀ b x y, f (f b x) y = f (f b y) x) {l l' : List α} (h : l.Perm l') :
    ∀ b : β, l.foldl f b = l'.foldl f b := by
  induction h with
  | nil => intro b; rfl
  | cons x _ ih => intro b; simp only [List.foldl_cons]; exact ih _
  | swap x y l => intro b; simp only [List.foldl_cons]; rw [H]
  | trans _ _ ih1 ih2 => intro b; rw [ih1, ih2]

theorem lookupA_none_of_forall_ne {α : Type} (m : List (String × α)) (k : String)
    (h : ∀ p ∈ m, p.1 ≠ k) : lookupA m k = none := by
  induction m with
  | nil => rfl
  | cons p rest ih =>
      rw [show p = (p.1, p.2) from rfl, lookupA, if_neg (h p (List.mem_cons_self p rest))]
      exact ih (fun q hq => h q (List.mem_cons_of_mem p hq))

theorem lookupA_filter_none {α : Type} (f : String × α → Bool) (m : List (String × α))
    (k : String) (hnd : (m.map Prod.fst).Nodup) (t : α)
    (hl : lookupA m k = some t) (hf : f (k, t) = false) :
    lookupA (m.filter f) k = none := by
  induction m with
  | nil => simp [lookupA] at hl
  | cons p rest ih =>
      obtain ⟨k0, v0⟩ := p
      simp only [List.map_cons, List.nodup_cons] at hnd
      obtain ⟨hk0, hnd'⟩ := hnd
      by_cases hke : k0 = k
      · subst hke
        rw [lookupA, if_pos rfl] at hl
        obtain rfl : v0 = t := by injection hl
        rw [List.filter_cons, if_neg (by simp [hf])]
        apply lookupA_none_of_forall_ne
        intro q hq hqk
        exact hk0 (by
          rw [← hqk]
          exact List.mem_map_of_mem Prod.fst (List.mem_of_mem_filter hq))
      · rw [lookupA, if_neg hke] at hl
        rw [List.filter_cons]
        by_cases hfp : f (k0, v0) = true
        · rw [if_pos (by simp [hfp])]
          rw [lookupA, if_neg hke]
          exact ih hnd' hl
        · rw [if_neg (by simp [hfp])]
          exact ih hnd' hl

/-- A normalized event with neutral fields, used to build the concrete
batches below. -/
def baseRow : RawLogRow :=
  { traceID := "T", spanID := "", parentSpanID := "", service := "svc", env := "prod"
    host := "h", version := "v1", level := "INFO", message := "", event := "log"
    route := "", method := "", statusCode := 0, durationMs := 0 }

/-- Two events for the same span carrying different nonzero status codes. -/
def c1rowA : RawLogRow := { baseRow with spanID := "a", statusCode := 200 }

/-- See `c1rowA`. -/
def c1rowB : RawLogRow := { baseRow with spanID := "a", statusCode := 503 }

/-- C1, counterexample: the batch `[c1rowA, c1rowB]` and its permutation
`[c1rowB, c1rowA]` flush to different Span records — `status_code` keeps
whichever nonzero status was folded last (503 versus 200), so span-field
resolution is not order-independent as claimed. -/
theorem C1_counterexample :
    ([((c1rowA : RawLogRow), (1000 : Int)), (c1rowB, 1000)].Perm
      [(c1rowB, 1000), (c1rowA, 1000)]) ∧
    (FlushNow (reconstructorAdd [] [(c1rowA, 1000), (c1rowB, 1000)]) 300000 120000).spanRows ≠
      (FlushNow (reconstructorAdd [] [(c1rowB, 1000), (c1rowA, 1000)]) 300000 120000).spanRows := by
  constructor
  · decide
  · decide

/-- C1 (amended): for every batch of normalized events and every
permutation of it, folding either ordering via `Add` leaves, at every
`(trace_id, span_id)` key, the same span presence and the same observed
`start_ts` (resolved by min), `end_ts` (resolved by max) and `is_error`
(error-sticky); `status_code`, `duration_ms` and identity fields such as
`parent_span_id` take the last-processed nonzero/non-empty value and may
differ between orderings. -/
theorem C1_amended_span_obs_perm_invariant (l l' : List (RawLogRow × Int)) (h : l.Perm l')
    (tid sid : String) :
    obsSpan (reconstructorAdd [] l) tid sid = obsSpan (reconstructorAdd [] l') tid sid := by
  rw [obsSpan_reconstructorAdd, obsSpan_reconstructorAdd]
  exact foldl_perm_of_rcomm (obsStep tid sid) (obsStep_rcomm tid sid) h _

/-- Witness for `C1_amended_span_obs_perm_invariant` at the concrete
two-event batch. -/
theorem C1_amended_witness :
    ([((c1rowA : RawLogRow), (1000 : Int)), (c1rowB, 1000)].Perm
      [(c1rowB, 1000), (c1rowA, 1000)]) ∧
    obsSpan (reconstructorAdd [] [(c1rowA, 1000), (c1rowB, 1000)]) "T" "a" =
      obsSpan (reconstructorAdd [] [(c1rowB, 1000), (c1rowA, 1000)]) "T" "a" :=
  ⟨by decide, C1_amended_span_obs_perm_invariant _ _ (by decide) "T" "a"⟩

/-- Events whose `start` arrives at t=100000 but whose `end` carries
t=50000 together with an explicit `durationMs`. -/
def c2batch : List (RawLogRow × Int) :=
  [({ baseRow with spanID := "s", event := "start" }, 100000),
   ({ baseRow with spanID := "s", event := "end", durationMs := 5 }, 50000)]

/-- C2, failing input: with an out-of-order `end` event carrying an
explicit `durationMs`, the flushed Span has `start_ts = 100000 > end_ts =
50000` — the `end < start` repair of `finalizeSpans` sits inside the
`durationMs == 0` branch and is skipped when an explicit duration is
present, so the claimed invariant `start_ts ≤ end_ts` fails. -/
theorem C2_failing_input_eval :
    ((FlushNow (reconstructorAdd [] c2batch) 300000 120000).spanRows.map
      (fun r => (r.startI, r.endI))) = [((100000 : Int), (50000 : Int))] ∧
    ¬ ((100000 : Int) ≤ 50000) := by
  constructor
  · decide
  · decide

/-- Events forming a two-span trace in which each span names the other as
its parent (the malformed cycle of the claim), with durations 10 and 20. -/
def c3batch : List (RawLogRow × Int) :=
  [({ baseRow with spanID := "s1", parentSpanID := "s2", event := "work", durationMs := 10 }, 1000),
   ({ baseRow with spanID := "s2", parentSpanID := "s1", event := "work", durationMs := 20 }, 1000)]

/-- C3, counterexample: flushing the mutual-parent cycle with durations 10
and 20 terminates, but yields `critical_path_ms = 30 = 10 + 20`, not
`max(10, 20) = 20`: the DFS charges the entered span its own duration
plus the partner's, zeroing only the re-entered span. -/
theorem C3_counterexample :
    ((FlushNow (reconstructorAdd [] c3batch) 300000 120000).traceRows.map
      (·.criticalPathMs)) = [30] ∧ max 10 20 = 20 ∧ (30 : Nat) ≠ 20 := by
  refine ⟨by decide, by decide, by decide⟩

/-- A span row of the mutual-parent cycle, with the given id, parent and
duration. -/
def cycleSpanRow (sid pid : String) (d : Nat) : SpanRow :=
  { traceID := "T", spanID := sid, parentSpanID := pid, service := "svc", env := "prod"
    host := "h", version := "v", operation := "op", startI := 0, endI := 0
    durationMs := d, selfTimeMs := d, statusCode := 0, isError := 0, source := "explicit" }

/-- C3 (amended): for the malformed trace whose two spans name each other
as parent, `criticalPath` terminates and returns the finite value
`s1.duration + s2.duration` (not the maximum): the seed set is empty, the
fallback seeds from all spans, and the visiting-set guard zeroes only the
re-entered span, so the first DFS scores `d1 + d2`. -/
theorem C3_amended_cycle_critical_path (d1 d2 : Nat) (h : d1 + d2 < 4294967296) :
    criticalPath [("s1", cycleSpanRow "s1" "s2" d1), ("s2", cycleSpanRow "s2" "s1" d2)]
      [("s2", ["s1"]), ("s1", ["s2"])] = d1 + d2 := by
  simp [criticalPath, cpDFS, lookupA, updateA, cycleSpanRow, u32]
  omega

/-- Witness for `C3_amended_cycle_critical_path` at durations 10 and 20. -/
theorem C3_amended_witness :
    criticalPath [("s1", cycleSpanRow "s1" "s2" 10), ("s2", cycleSpanRow "s2" "s1" 20)]
      [("s2", ["s1"]), ("s1", ["s2"])] = 30 :=
  C3_amended_cycle_critical_path 10 20 (by decide)

/-- A finished span used to build a concrete aged trace. -/
def c4span : SpanState :=
  { traceID := "T", spanID := "s", parentSpanID := "", service := "svc", env := "prod"
    host := "h", version := "v1", operation := "op", startTs := some 1000, endTs := some 2000
    durationMs := 0, statusCode := 0, isError := false, source := "explicit" }

/-- An aged trace state (last touched at t=2000). -/
def c4trace : TraceState :=
  { id := "T", env := "prod", updatedAt := some 2000, spans := [("s", c4span)] }

/-- A reconstructor map holding the single aged trace `c4trace`. -/
def c4state : TraceMap := [("T", c4trace)]

/-- C4, counterexample: the aged trace `"T"` is resident before the flush,
yet after a flush whose store insert fails (`store = false`) it is gone
from memory — `FlushNow` deletes each aged trace inside its loop and
discards the insert results, so a failed write is not retried on the next
tick. -/
theorem C4_counterexample :
    lookupA c4state "T" = some c4trace ∧
    agedAt 300000 120000 c4trace = true ∧
    lookupA (FlushNowStore c4state 300000 120000 false).traces "T" = none := by
  refine ⟨by decide, by decide, by decide⟩

/-- C4 (amended): the flush's in-memory result and row batches are
independent of the store outcome (the source discards every insert
result), and every aged trace is removed from memory unconditionally —
including when the store write fails. -/
theorem C4_amended_flush_ignores_store (m : TraceMap) (now window : Int)
    (store store' : StoreOutcome) (hnd : (m.map Prod.fst).Nodup) :
    FlushNowStore m now window store = FlushNowStore m now window store' ∧
    (∀ tid t, lookupA m tid = some t → agedAt now window t = true →
      lookupA (FlushNowStore m now window store).traces tid = none) := by
  constructor
  · rfl
  · intro tid t hl ha
    have htr : (FlushNowStore m now window store).traces =
        m.filter (fun p => ! agedAt now window p.2) := rfl
    rw [htr]
    exact lookupA_filter_none _ m tid hnd t hl (by simp [ha])

/-- Witness for `C4_amended_flush_ignores_store` at the concrete aged
state. -/
theorem C4_amended_witness :
    FlushNowStore c4state 300000 120000 false = FlushNowStore c4state 300000 120000 true ∧
    lookupA (FlushNowStore c4state 300000 120000 false).traces "T" = none :=
  ⟨(C4_amended_flush_ignores_store c4state 300000 120000 false true (by decide)).1,
   (C4_amended_flush_ignores_store c4state 300000 120000 false true (by decide)).2
     "T" c4trace (by decide) (by decide)⟩

/-- The child event of `c5batch`: parented to `"p"`, same duration. -/
def c5child : RawLogRow :=
  { baseRow with
      spanID := "c"
      parentSpanID := "p"
      event := "work"
      durationMs := 10
      service := "svc-b" }

/-- A parent span and one child with exactly the parent's duration. -/
def c5batch : List (RawLogRow × Int) :=
  [({ baseRow with spanID := "p", event := "work", durationMs := 10 }, 1000),
   (c5child, 1000)]

/-- C5, counterexample: for a parent of duration 10 whose single child
also has duration 10 (child total = parent duration), the flushed parent
span carries `self_time_ms = 10`, not 0: the source's guard is
`childTotal < duration`, so at equality the subtraction branch is skipped
and self-time stays the full duration. -/
theorem C5_counterexample :
    ((FlushNow (reconstructorAdd [] c5batch) 300000 120000).spanRows.map
      (fun r => (r.spanID, r.durationMs, r.selfTimeMs))) =
      [("p", 10, 10), ("c", 10, 10)] ∧ (10 : Nat) ≠ 0 := by
  refine ⟨by decide, by decide⟩

/-- C5 (amended): during finalization `self_time_ms = duration_ms −
childSum` exactly when the child total is strictly below the duration,
and `self_time_ms = duration_ms` whenever the child total is greater than
or equal to it — in particular, at equality self-time equals the full
duration, not 0; in all cases `self_time_ms ≤ duration_ms`. -/
theorem C5_amended_self_time (duration childTotal : Nat) :
    (childTotal < duration → selfTimeOf duration childTotal = duration - childTotal) ∧
    (duration ≤ childTotal → selfTimeOf duration childTotal = duration) ∧
    selfTimeOf duration childTotal ≤ duration := by
  unfold selfTimeOf
  refine ⟨fun h => by rw [if_pos h], fun h => by rw [if_neg (by omega)], ?_⟩
  split_ifs <;> omega

/-- Witness for `C5_amended_self_time` at the boundary `childSum =
duration = 10` and at `childSum = 4 < duration = 10`. -/
theorem C5_amended_witness :
    selfTimeOf 10 10 = 10 ∧ selfTimeOf 10 4 = 6 :=
  ⟨(C5_amended_self_time 10 10).2.1 (by decide),
   (C5_amended_self_time 10 4).1 (by decide)⟩

/-- Source: `handlers.parseRange` (read API).  A query parameter is
`none` when absent and `some none` when present but not RFC3339
(`time.Parse` failing keeps the default); `some (some v)` carries the
parsed value.  Defaults are `to = now`, `from = now − 1h`; when the
resulting window has `from ≥ to`, only `from` is replaced by `to − 1h`. -/
def parseRange (now : Int) (toParam fromParam : Option (Option Int)) : Int × Int :=
  let t :=
    match toParam with
    | some (some p) => p
    | _ => now
  let f :=
    match fromParam with
    | some (some p) => p
    | _ => now - 3600000
  if f < t then (f, t) else (t - 3600000, t)

/-- Source: `handlers.pctDelta`; `float64` modelled on `ℚ`. -/
def pctDelta (base cand : ℚ) : ℚ :=
  if base = 0 then (if cand = 0 then 0 else 100)
  else (cand - base) / |base| * 100

/-- Source: `handlers.clamp`. -/
def clamp (v lo hi : ℚ) : ℚ :=
  if v < lo then lo else if hi < v then hi else v

/-- Go `math.Round` on `ℚ`: round half away from zero. -/
def roundHalfAway (q : ℚ) : Int :=
  if 0 ≤ q then ⌊q + 1/2⌋ else -⌊-q + 1/2⌋

/-- Source: `handlers.round` — round to `d` decimal digits. -/
def roundTo (q : ℚ) (d : Nat) : ℚ :=
  (roundHalfAway (q * 10 ^ d) : ℚ) / 10 ^ d

/-- Source: `handlers.scoreToPct`. -/
def scoreToPct (v : ℚ) : ℚ := v * 100

/-- Root-cause service score (source: `buildRootCauseRanking`, line 941). -/
def rootCauseScore (latPct errPct callPct blocking : ℚ) : ℚ :=
  0.5 * clamp (latPct / 300) 0 1 + 0.25 * clamp (errPct / 300) 0 1 +
  0.15 * clamp (callPct / 300) 0 1 + 0.10 * clamp blocking 0 1

/-- Anomaly deviation score (source: `buildAnomalyBadges`, line 977). -/
def deviationScore (latPct errPct callPct : ℚ) : ℚ :=
  clamp (max (|latPct| / 300) (max (|errPct| / 300) (|callPct| / 300))) 0 1

/-- Self-time clamp of `buildTraceDrilldown` (line 671): a stored
self-time above the duration is cut to the duration. -/
def drillSelf (duration selfRaw : Nat) : Nat :=
  if duration < selfRaw then duration else selfRaw

/-- Wait-time of `buildTraceDrilldown` (line 674): `duration − self` when
positive, else 0. -/
def drillWait (duration self : Nat) : Nat :=
  if self < duration then duration - self else 0

/-- Internal blocking fraction of `buildTraceDrilldown` (line 677):
`wait/duration`, 0 when the duration is 0. -/
def drillBlocking (duration wait : Nat) : ℚ :=
  if 0 < duration then (wait : ℚ) / (duration : ℚ) else 0

/-- The `blocking_ratio` value as emitted in the waterfall payload
(line 830): `round(scoreToPct(ratio), 2)`, i.e. a percentage. -/
def reportedBlocking (br : ℚ) : ℚ := roundTo (scoreToPct br) 2

theorem roundHalfAway_nonneg (q : ℚ) (h : 0 ≤ q) : 0 ≤ roundHalfAway q := by
  unfold roundHalfAway
  rw [if_pos h]
  exact Int.floor_nonneg.mpr (by linarith)

theorem roundHalfAway_le_int (q : ℚ) (n : ℤ) (h0 : 0 ≤ q) (h : q ≤ (n : ℚ)) :
    roundHalfAway q ≤ n := by
  unfold roundHalfAway
  rw [if_pos h0]
  have h1 : (⌊q + 1/2⌋ : ℤ) ≤ ⌊(1/2 : ℚ) + (n : ℚ)⌋ := Int.floor_le_floor (by linarith)
  rwa [Int.floor_add_int, show ⌊(1/2 : ℚ)⌋ = 0 by norm_num, zero_add] at h1

theorem roundTo_nonneg (q : ℚ) (d : Nat) (h : 0 ≤ q) : 0 ≤ roundTo q d := by
  unfold roundTo
  have h1 : (0 : ℤ) ≤ roundHalfAway (q * 10 ^ d) :=
    roundHalfAway_nonneg _ (by positivity)
  have h2 : (0 : ℚ) ≤ (roundHalfAway (q * 10 ^ d) : ℚ) := by exact_mod_cast h1
  positivity

theorem roundTo_le_nat (q : ℚ) (d c : Nat) (h0 : 0 ≤ q) (h : q ≤ (c : ℚ)) :
    roundTo q d ≤ (c : ℚ) := by
  unfold roundTo
  have hp : (0 : ℚ) < 10 ^ d := by positivity
  have h1 : roundHalfAway (q * 10 ^ d) ≤ ((c * 10 ^ d : ℕ) : ℤ) := by
    apply roundHalfAway_le_int _ _ (by positivity)
    push_cast
    nlinarith
  rw [div_le_iff₀ hp]
  calc (roundHalfAway (q * 10 ^ d) : ℚ) ≤ ((c * 10 ^ d : ℕ) : ℤ) := by exact_mod_cast h1
    _ = (c : ℚ) * 10 ^ d := by push_cast; ring

theorem clamp01_bounds (v : ℚ) : 0 ≤ clamp v 0 1 ∧ clamp v 0 1 ≤ 1 := by
  unfold clamp
  split_ifs <;> constructor <;> linarith

/-- C7, counterexample: with `now = 1000000`, `to = 500` and `from = 600`
(an invalid window, `from ≥ to`), `parseRange` returns `(to − 1h, to) =
(−3599500, 500)`, not the claimed `[now − 1h, now] = (−2600000, 1000000)`:
only `from` is replaced and `to` keeps its parsed value. -/
theorem C7_counterexample :
    parseRange 1000000 (some (some 500)) (some (some 600)) = (500 - 3600000, 500) ∧
    parseRange 1000000 (some (some 500)) (some (some 600)) ≠
      (1000000 - 3600000, 1000000) := by
  refine ⟨by decide, by decide⟩

/-- C7 (amended): when both bounds parse and `from ≥ to`, the fallback
window is `[to − 1h, to]` — only `from` is replaced, `to` keeps its
parsed value; the window `[now − 1h, now]` is used only for missing or
unparseable parameters.  The returned window always satisfies
`from < to`. -/
theorem C7_amended (now t f : Int) :
    (¬ f < t → parseRange now (some (some t)) (some (some f)) = (t - 3600000, t)) ∧
    parseRange now none none = (now - 3600000, now) ∧
    (parseRange now (some (some t)) (some (some f))).1 <
      (parseRange now (some (some t)) (some (some f))).2 := by
  refine ⟨fun h => by simp only [parseRange]; rw [if_neg h], ?_, ?_⟩
  · simp only [parseRange]
    rw [if_pos (by omega)]
  · simp only [parseRange]
    split_ifs with h
    · exact h
    · simp only []
      omega

/-- Witness for `C7_amended` at `now = 1000000`, `to = 500`,
`from = 600`. -/
theorem C7_amended_witness :
    parseRange 1000000 (some (some 500)) (some (some 600)) = (500 - 3600000, 500) ∧
    parseRange 1000000 none none = (1000000 - 3600000, 1000000) :=
  ⟨(C7_amended 1000000 500 600).1 (by decide), (C7_amended 1000000 500 600).2.1⟩

/-- C8, counterexample: a span with `duration_ms = 3` and `self_time_ms =
1` has `wait_ms = 2`; its internal blocking fraction is `2/3`, but the
`blocking_ratio` field written into the waterfall payload is
`round(scoreToPct(2/3), 2) = 66.67`, a percentage — not `wait/duration`
as claimed. -/
theorem C8_counterexample :
    drillWait 3 (drillSelf 3 1) = 2 ∧
    reportedBlocking (drillBlocking 3 (drillWait 3 (drillSelf 3 1))) = 6667 / 100 ∧
    ((6667 : ℚ) / 100) ≠ 2 / 3 := by
  refine ⟨by decide, ?_, by norm_num⟩
  norm_num [reportedBlocking, drillBlocking, drillWait, drillSelf, scoreToPct, roundTo,
    roundHalfAway]

/-- C8 (amended): in the waterfall payload `wait_ms = duration_ms −
self_time_ms` (with the stored self-time first clamped to the duration);
the internal blocking fraction `wait/duration` lies in `[0, 1]` and is 0
when the duration is 0, but the `blocking_ratio` field actually emitted
is the percentage `round(100 · wait/duration, 2)`, which lies in
`[0, 100]`. -/
theorem C8_amended (duration selfRaw : Nat) :
    drillWait duration (drillSelf duration selfRaw) =
      duration - drillSelf duration selfRaw ∧
    (duration = 0 → drillBlocking duration (drillWait duration (drillSelf duration selfRaw)) = 0) ∧
    0 ≤ drillBlocking duration (drillWait duration (drillSelf duration selfRaw)) ∧
    drillBlocking duration (drillWait duration (drillSelf duration selfRaw)) ≤ 1 ∧
    reportedBlocking (drillBlocking duration (drillWait duration (drillSelf duration selfRaw))) =
      roundTo (drillBlocking duration (drillWait duration (drillSelf duration selfRaw)) * 100) 2 ∧
    0 ≤ reportedBlocking (drillBlocking duration (drillWait duration (drillSelf duration selfRaw))) ∧
    reportedBlocking (drillBlocking duration (drillWait duration (drillSelf duration selfRaw))) ≤ 100 := by
  have hself : drillSelf duration selfRaw ≤ duration := by
    unfold drillSelf
    split_ifs <;> omega
  have hwait : drillWait duration (drillSelf duration selfRaw) =
      duration - drillSelf duration selfRaw := by
    unfold drillWait
    split_ifs <;> omega
  have hwle : drillWait duration (drillSelf duration selfRaw) ≤ duration := by omega
  have hbr0 : 0 ≤ drillBlocking duration (drillWait duration (drillSelf duration selfRaw)) := by
    unfold drillBlocking
    split_ifs with h
    · positivity
    · exact le_refl 0
  have hbr1 : drillBlocking duration (drillWait duration (drillSelf duration selfRaw)) ≤ 1 := by
    unfold drillBlocking
    split_ifs with h
    · rw [div_le_one (by exact_mod_cast h)]
      exact_mod_cast hwle
    · norm_num
  refine ⟨hwait, ?_, hbr0, hbr1, rfl, ?_, ?_⟩
  · intro h0
    unfold drillBlocking
    rw [if_neg (by omega)]
  · exact roundTo_nonneg _ _ (by
      unfold scoreToPct
      positivity)
  · unfold reportedBlocking scoreToPct
    have hb : drillBlocking duration (drillWait duration (drillSelf duration selfRaw)) * 100 ≤
        ((100 : Nat) : ℚ) := by
      push_cast
      nlinarith
    have h2 := roundTo_le_nat _ 2 100 (by positivity) hb
    exact_mod_cast h2

/-- Witness for `C8_amended` at `duration = 3`, `self_time = 1`. -/
theorem C8_amended_witness :
    drillWait 3 (drillSelf 3 1) = 3 - drillSelf 3 1 ∧
    drillBlocking 3 (drillWait 3 (drillSelf 3 1)) ≤ 1 :=
  ⟨(C8_amended 3 1).1, (C8_amended 3 1).2.2.2.1⟩

/-- C9: `pctDelta(0,0) = 0`; `pctDelta(0,x) = 100` for nonzero `x`;
`pctDelta(b,c) = (c−b)/|b|·100` for nonzero `b`; `clamp(·,0,1)` always
lands in `[0,1]`; consequently every root-cause score (also after its
4-digit rounding) and every anomaly deviation score lies in `[0,1]`. -/
theorem C9_pctDelta_clamp_scores :
    pctDelta 0 0 = 0 ∧
    (∀ x : ℚ, x ≠ 0 → pctDelta 0 x = 100) ∧
    (∀ b c : ℚ, b ≠ 0 → pctDelta b c = (c - b) / |b| * 100) ∧
    (∀ v : ℚ, 0 ≤ clamp v 0 1 ∧ clamp v 0 1 ≤ 1) ∧
    (∀ a b c d : ℚ, 0 ≤ rootCauseScore a b c d ∧ rootCauseScore a b c d ≤ 1 ∧
      0 ≤ roundTo (rootCauseScore a b c d) 4 ∧ roundTo (rootCauseScore a b c d) 4 ≤ 1) ∧
    (∀ a b c : ℚ, 0 ≤ deviationScore a b c ∧ deviationScore a b c ≤ 1) := by
  refine ⟨by norm_num [pctDelta], fun x hx => by simp [pctDelta, hx],
    fun b c hb => by simp [pctDelta, hb], clamp01_bounds, ?_, ?_⟩
  · intro a b c d
    obtain ⟨h1a, h1b⟩ := clamp01_bounds (a / 300)
    obtain ⟨h2a, h2b⟩ := clamp01_bounds (b / 300)
    obtain ⟨h3a, h3b⟩ := clamp01_bounds (c / 300)
    obtain ⟨h4a, h4b⟩ := clamp01_bounds d
    have hs0 : 0 ≤ rootCauseScore a b c d := by
      unfold rootCauseScore
      linarith
    have hs1 : rootCauseScore a b c d ≤ 1 := by
      unfold rootCauseScore
      linarith
    exact ⟨hs0, hs1, roundTo_nonneg _ _ hs0,
      by exact_mod_cast roundTo_le_nat (rootCauseScore a b c d) 4 1 hs0 (by exact_mod_cast hs1)⟩
  · intro a b c
    exact clamp01_bounds _

/-- Witness for `C9_pctDelta_clamp_scores` at concrete arguments. -/
theorem C9_witness :
    pctDelta 0 5 = 100 ∧ pctDelta 2 3 = (3 - 2) / |(2 : ℚ)| * 100 ∧ 0 ≤ clamp (7 : ℚ) 0 1 :=
  ⟨C9_pctDelta_clamp_scores.2.1 5 (by norm_num),
   C9_pctDelta_clamp_scores.2.2.1 2 3 (by norm_num),
   (C9_pctDelta_clamp_scores.2.2.2.1 7).1⟩

/-- Incoming event fields (source: `model.IngestEvent`); `attrs` is kept
as an association list. -/
structure IngestEvent where
  timestamp : String
  service : String
  env : String
  host : String
  level : String
  message : String
  status : String
  correlationId : String
  spanId : String
  parentSpanId : String
  event : String
  route : String
  method : String
  statusCode : Nat
  durationMs : Nat
  version : String
  attrs : List (String × String)
  deriving Repr, DecidableEq

/-- Per-line reject record (source: `server.ingestError`). -/
structure IngestError where
  line : Nat
  reason : String
  deriving Repr, DecidableEq

/-- Response body of the ingest endpoint (source:
`server.ingestResponse`). -/
structure IngestResponse where
  accepted : Nat
  rejected : Nat
  errors : List IngestError
  deriving Repr, DecidableEq

/-- An HTTP reply of the ingest handler: a JSON body or a plain-text
error (`http.Error`). -/
inductive HttpReply where
  | json (status : Nat) (resp : IngestResponse)
  | errText (status : Nat) (msg : String)
  deriving Repr, DecidableEq

/-- Outcome of `json.Unmarshal` on one NDJSON line — the decoder is the
external standard library, abstracted per line: blank lines are skipped,
malformed lines fail, well-formed lines carry the decoded event. -/
inductive LineParse where
  | blank
  | malformed
  | parsed (e : IngestEvent)
  deriving Repr, DecidableEq

/-- NDJSON branch of `server.parseEvents` (handler.go lines 156–180):
lines are numbered from 1 (blank lines count), a decode failure appends a
reject record with the decoder's message — with NO cap — and a decoded
line appends the event. -/
def parseEventsND (lines : List LineParse) : List IngestEvent × List IngestError :=
  (lines.foldl
    (fun (acc : Nat × List IngestEvent × List IngestError) lp =>
      let line := acc.1 + 1
      match lp with
      | .blank => (line, acc.2)
      | .malformed => (line, acc.2.1, acc.2.2 ++ [{ line := line, reason := "unmarshal error" }])
      | .parsed e => (line, acc.2.1 ++ [e], acc.2.2))
    (0, [], [])).2

/-- ASCII whitespace recognised by Go's `strings.TrimSpace`
(`unicode.IsSpace`); the model covers the ASCII range. -/
def isSpaceChar (c : Char) : Bool :=
  c == ' ' || c == '\t' || c == '\n' || c == '\r' || c == Char.ofNat 11 || c == Char.ofNat 12

/-- Rune-level trim underlying `strings.TrimSpace`. -/
def trimChars (s : List Char) : List Char :=
  ((s.dropWhile isSpaceChar).reverse.dropWhile isSpaceChar).reverse

/-- Go `strings.TrimSpace`, modelled on the rune list of the string. -/
def goTrim (s : String) : String := String.mk (trimChars s.data)

/-- ASCII case mapping of Go `strings.ToUpper`. -/
def upperChar (c : Char) : Char :=
  if 'a' ≤ c && c ≤ 'z' then Char.ofNat (c.toNat - 32) else c

/-- ASCII case mapping of Go `strings.ToLower`. -/
def lowerChar (c : Char) : Char :=
  if 'A' ≤ c && c ≤ 'Z' then Char.ofNat (c.toNat + 32) else c

/-- Go `strings.ToUpper` (ASCII range). -/
def goUpper (s : String) : String := String.mk (s.data.map upperChar)

/-- Go `strings.ToLower` (ASCII range). -/
def goLower (s : String) : String := String.mk (s.data.map lowerChar)

/-- Source: `withDefault` (collector `model` package). -/
def withDefault (v fallback : String) : String :=
  if goTrim v = "" then fallback else goTrim v

/-- Source: `IngestEvent.ToRaw` (collector main/model, lines 210–258).
The RFC3339Nano parser is the external `time.Parse`, abstracted as
`parseTS`; `now` is the receive time used when no timestamp is supplied.
The `attrs`/`raw_json` outputs are not carried by the embedded
`RawLogRow` (the reconstructor never reads them). -/
def ToRaw (parseTS : String → Option Int) (now : Int) (e : IngestEvent) :
    Except String (RawLogRow × Int) :=
  let traceID := goTrim e.correlationId
  if traceID = "" then .error "missing correlationId"
  else
    let tsr : Except String Int :=
      if goTrim e.timestamp ≠ "" then
        match parseTS e.timestamp with
        | none => .error "invalid timestamp"
        | some t => .ok t
      else .ok now
    match tsr with
    | .error msg => .error msg
    | .ok ts =>
        .ok ({ traceID := traceID
               spanID := goTrim e.spanId
               parentSpanID := goTrim e.parentSpanId
               service := withDefault e.service "unknown-service"
               env := withDefault e.env "unknown"
               host := withDefault e.host "unknown-host"
               version := withDefault e.version "unknown"
               level := goUpper (withDefault e.level "INFO")
               message := e.message
               event := (if goLower (goTrim e.event) = "" then "log" else goLower (goTrim e.event))
               route := e.route
               method := goUpper e.method
               statusCode := e.statusCode
               durationMs := e.durationMs }, ts)

/-- One iteration of the normalization loop of `Handler.IngestLogs`
(handler.go lines 77–88): accumulates `(index, rawRows-with-times,
rejected, errors)`; a reject record is appended only while fewer than 100
errors have been reported. -/
def ingestStep (parseTS : String → Option Int) (now : Int)
    (acc : Nat × List (RawLogRow × Int) × Nat × List IngestError) (e : IngestEvent) :
    Nat × List (RawLogRow × Int) × Nat × List IngestError :=
  let i := acc.1 + 1
  match ToRaw parseTS now e with
  | .error reason =>
      (i, acc.2.1, acc.2.2.1 + 1,
       if acc.2.2.2.length < 100 then acc.2.2.2 ++ [{ line := i, reason := reason }]
       else acc.2.2.2)
  | .ok rt => (i, acc.2.1 ++ [rt], acc.2.2)

/-- Source: `Handler.IngestLogs` (handler.go lines 67–99), NDJSON body:
parse the lines, 400 when nothing decoded, otherwise normalize each
event, insert the accepted rows (502 with the store's text on failure,
mutating nothing in memory), hand them to the reconstructor, and answer
200 with `{accepted, rejected, errors}`. -/
def IngestLogs (parseTS : String → Option Int) (now : Int) (lines : List LineParse)
    (storeOK : Bool) : HttpReply :=
  let pe := parseEventsND lines
  let events := pe.1
  let parseErrs := pe.2
  if events.isEmpty then
    .json 400 { accepted := 0, rejected := parseErrs.length, errors := parseErrs }
  else
    let norm := events.foldl (ingestStep parseTS now) (0, [], 0, parseErrs)
    let rawRows := norm.2.1
    if 0 < rawRows.length ∧ ¬ storeOK then .errText 502 "store insert failed"
    else
      .json 200 { accepted := rawRows.length
                  rejected := norm.2.2.1 + (events.length - rawRows.length)
                  errors := norm.2.2.2 }

/-- Number of reject records in a JSON reply (0 for a text error, whose
body carries no errors array). -/
def replyErrorsCount : HttpReply → Nat
  | .json _ resp => resp.errors.length
  | .errText _ _ => 0

/-- An event whose only populated field is `correlationId = "c"` — it
normalizes successfully with the receive-time timestamp. -/
def c6event : IngestEvent :=
  { timestamp := "", service := "", env := "", host := "", level := "", message := ""
    status := "", correlationId := "c", spanId := "", parentSpanId := "", event := ""
    route := "", method := "", statusCode := 0, durationMs := 0, version := "", attrs := [] }

set_option maxRecDepth 4000 in
/-- C6, counterexample: a request of 101 undecodable lines followed by
one well-formed event is accepted (HTTP 200), yet its response carries
101 reject records — the 100 cap guards only the normalization loop of
`IngestLogs`, while `parseEvents` appends decode errors unbounded. -/
theorem C6_counterexample :
    replyErrorsCount (IngestLogs (fun _ => none) 0
      (List.replicate 101 LineParse.malformed ++ [LineParse.parsed c6event]) true) = 101 ∧
    100 < 101 := ⟨by decide, by decide⟩

theorem ingestStep_errs_le (parseTS : String → Option Int) (now : Int)
    (acc : Nat × List (RawLogRow × Int) × Nat × List IngestError) (e : IngestEvent) :
    (ingestStep parseTS now acc e).2.2.2.length ≤ max acc.2.2.2.length 100 := by
  unfold ingestStep
  cases ToRaw parseTS now e with
  | error r =>
      simp only []
      split_ifs with h
      · simp only [List.length_append, List.length_cons, List.length_nil]
        omega
      · exact le_max_left _ _
  | ok rt => exact le_max_left _ _

theorem ingest_fold_errs_le (parseTS : String → Option Int) (now : Int)
    (events : List IngestEvent) (acc : Nat × List (RawLogRow × Int) × Nat × List IngestError) :
    (events.foldl (ingestStep parseTS now) acc).2.2.2.length ≤ max acc.2.2.2.length 100 := by
  induction events generalizing acc with
  | nil => exact le_max_left _ _
  | cons e rest ih =>
      rw [List.foldl_cons]
      refine le_trans (ih (ingestStep parseTS now acc e)) ?_
      have hstep := ingestStep_errs_le parseTS now acc e
      omega

/-- C6 (amended): every JSON ingest response carries at most
`max(#decode-errors, 100)` reject records: the 100 cap applies only to
the normalization rejects appended by `IngestLogs`, while the per-line
JSON decode errors of `parseEvents` are reported without a cap, so a
request whose lines overwhelmingly fail to decode can exceed 100
entries. -/
theorem C6_amended (parseTS : String → Option Int) (now : Int) (lines : List LineParse)
    (storeOK : Bool) (status : Nat) (resp : IngestResponse)
    (h : IngestLogs parseTS now lines storeOK = HttpReply.json status resp) :
    resp.errors.length ≤ max (parseEventsND lines).2.length 100 := by
  simp only [IngestLogs] at h
  split_ifs at h with h1 h2
  all_goals cases h
  all_goals try exact le_max_left _ _
  all_goals (
    have hfold := ingest_fold_errs_le parseTS now (parseEventsND lines).1
      (0, [], 0, (parseEventsND lines).2)
    simpa using hfold)

/-- Witness for `C6_amended` on a one-line request that fails to
decode. -/
theorem C6_amended_witness :
    ({ accepted := 0, rejected := 1
       errors := [{ line := 1, reason := "unmarshal error" }] } : IngestResponse).errors.length ≤
      max (parseEventsND [LineParse.malformed]).2.length 100 :=
  C6_amended (fun _ => none) 0 [LineParse.malformed] true 400 _ (by decide)

/-- The character class of the sanitizer's regular expression (source:
`handlers.safeToken`): ASCII letters, digits, dot, underscore, colon,
slash and dash. -/
def isSafeTokenChar (c : Char) : Bool :=
  ('a' ≤ c && c ≤ 'z') || ('A' ≤ c && c ≤ 'Z') || ('0' ≤ c && c ≤ '9') ||
  c == '.' || c == '_' || c == ':' || c == '/' || c == '-'

/-- Go `strings.Split(s, "/")` on the rune list. -/
def splitOnSlash (s : List Char) : List (List Char) :=
  let acc := s.foldl
    (fun (a : List (List Char) × List Char) c =>
      if c = '/' then (a.1 ++ [a.2], []) else (a.1, a.2 ++ [c]))
    ([], [])
  acc.1 ++ [acc.2]

/-- Source: `handlers.sanitize` — trim, then demand a non-empty
all-safe-character token, otherwise return the empty string. -/
def sanitize (v : List Char) : List Char :=
  if trimChars v = [] then []
  else if (trimChars v).all isSafeTokenChar then trimChars v else []

/-- What `Handler.TraceByID` does before any SQL is composed. -/
inductive TraceAction where
  | badRequest
  | queryStore (id : List Char)
  deriving Repr, DecidableEq

/-- Source: `Handler.TraceByID` (handlers.go lines 108–119) up to the
first store query; `tail` is the URL path with the `/v1/traces/` prefix
and surrounding slashes trimmed.  An empty tail or an id that sanitizes
to empty answers 400 `invalid trace id` without touching the store. -/
def traceByIDGate (tail : List Char) : TraceAction :=
  if tail = [] then .badRequest
  else
    let id := sanitize ((splitOnSlash tail).headD [])
    if id = [] then .badRequest else .queryStore id

/-- An ingest event whose only populated field is its correlation id. -/
def mkIngestEvent (corrId : String) : IngestEvent :=
  { c6event with correlationId := corrId }

/-- The raw-log row `ToRaw` produces for `mkIngestEvent`: every optional
field defaulted, the trimmed correlation id as `trace_id`. -/
def acceptedRow (tid : String) : RawLogRow :=
  { traceID := tid, spanID := "", parentSpanID := "", service := "unknown-service"
    env := "unknown", host := "unknown-host", version := "unknown", level := "INFO"
    message := "", event := "log", route := "", method := "", statusCode := 0
    durationMs := 0 }

theorem splitOnSlash_go (l : List Char) (parts : List (List Char)) (cur : List Char)
    (h : ∀ c ∈ l, c ≠ '/') :
    l.foldl (fun (a : List (List Char) × List Char) c =>
      if c = '/' then (a.1 ++ [a.2], []) else (a.1, a.2 ++ [c])) (parts, cur) =
    (parts, cur ++ l) := by
  induction l generalizing parts cur with
  | nil => simp
  | cons c rest ih =>
      rw [List.foldl_cons, if_neg (h c (List.mem_cons_self c rest))]
      rw [ih _ _ (fun d hd => h d (List.mem_cons_of_mem c hd))]
      simp

theorem splitOnSlash_no_slash (id : List Char) (h : ∀ c ∈ id, c ≠ '/') :
    splitOnSlash id = [id] := by
  unfold splitOnSlash
  rw [splitOnSlash_go id [] [] h]
  simp

/-- C10, counterexample: the id `"abc "` contains a space, a character
outside the sanitizer's class — by the claim the endpoint should answer
400 — yet the handler trims first, so it proceeds to query the store for
`"abc"`. -/
theorem C10_counterexample :
    (∃ c ∈ ("abc ".data), isSafeTokenChar c = false) ∧
    traceByIDGate ("abc ".data) = TraceAction.queryStore ("abc".data) := by
  refine ⟨⟨' ', by decide, by decide⟩, by decide⟩

/-- C10 (amended): for every trace id (a single path segment, hence
slash-free) whose whitespace-trimmed form is empty or still contains a
character outside the sanitizer's class, `GET /v1/traces/{id}` answers 400
`invalid trace id` before any store query — even though ingest accepts
any correlation id with non-empty trim, storing its trimmed form as the
trace id, so such traces can exist in the store yet be unreachable
through this endpoint. -/
theorem C10_amended :
    (∀ id : List Char, (∀ c ∈ id, c ≠ '/') →
      (trimChars id = [] ∨ ∃ c ∈ trimChars id, isSafeTokenChar c = false) →
      traceByIDGate id = TraceAction.badRequest) ∧
    (∀ (parseTS : String → Option Int) (now : Int) (corrId : String),
      goTrim corrId ≠ "" →
      ToRaw parseTS now (mkIngestEvent corrId) =
        Except.ok (acceptedRow (goTrim corrId), now)) := by
  constructor
  · intro id hslash hbad
    unfold traceByIDGate
    by_cases hnil : id = []
    · rw [if_pos hnil]
    · rw [if_neg hnil]
      rw [splitOnSlash_no_slash id hslash]
      have hsan : sanitize id = [] := by
        unfold sanitize
        rcases hbad with hempty | ⟨c, hc, hfalse⟩
        · rw [if_pos hempty]
        · have hne : trimChars id ≠ [] := by
            intro he
            rw [he] at hc
            cases hc
          have hall : ¬ ((trimChars id).all isSafeTokenChar = true) := by
            rw [List.all_eq_true]
            push_neg
            exact ⟨c, hc, by simp [hfalse]⟩
          rw [if_neg hne, if_neg hall]
      simp [List.headD, hsan]
  · intro parseTS now corrId h
    simp only [ToRaw, mkIngestEvent]
    rw [if_neg ?hc]
    case hc => simpa [c6event] using h
    rfl

/-- Witness for `C10_amended`: the id `"sp id!"` (no slash, bad
characters after trimming) is rejected by the endpoint while ingest
accepts it as a correlation id. -/
theorem C10_amended_witness :
    traceByIDGate ("sp id!".data) = TraceAction.badRequest ∧
    ToRaw (fun _ => none) 0 (mkIngestEvent "sp id!") =
      Except.ok (acceptedRow (goTrim "sp id!"), 0) :=
  ⟨C10_amended.1 ("sp id!".data) (by decide) (Or.inr ⟨'!', by decide, by decide⟩),
   C10_amended.2 (fun _ => none) 0 "sp id!" (by decide)⟩
